import Mathlib

/-!
Verification of the ConvoKit redirection demo (redirectionDemo.ipynb) and the
redirection-scorer contract described in the repository specification.

The notebook's own data-handling steps (role labeling, train/val/test split
labeling, bucket labeling of high/low redirection utterances) are embedded
directly from the notebook cells.  The `Redirection` / `LikelihoodModel`
classes the notebook imports from `convokit.redirection` are not part of the
given sources, so they are modelled from the specification, as indicated in
the doc comments below.
-/

namespace ConvoKit

/-- Metadata values stored in the mutable metadata maps of utterances and
conversations: string labels (roles, bucket types), numeric scores
(log-likelihood based redirection scores, modelled as exact rationals), and
boolean split flags. -/
inductive MetaVal where
  | str : String → MetaVal
  | num : Rat → MetaVal
  | bool : Bool → MetaVal
deriving DecidableEq, Repr, Inhabited

/-- A metadata map: association list from key to value. -/
abbrev Meta := List (String × MetaVal)

/-- Look up a metadata key. -/
def metaLookup : Meta → String → Option MetaVal
  | [], _ => none
  | (k', v) :: t, k => if k' = k then some v else metaLookup t k

/-- Remove every binding of a metadata key. -/
def metaRemove : Meta → String → Meta
  | [], _ => []
  | (k', v) :: t, k => if k' = k then metaRemove t k else (k', v) :: metaRemove t k

/-- Set a metadata key (replacing any previous binding of that key), as a
Python dict assignment does. -/
def metaSet (m : Meta) (k : String) (v : MetaVal) : Meta :=
  metaRemove m k ++ [(k, v)]

/-- An utterance: text content, speaker identity (the speaker's id) and a
mutable metadata map used to store computed scores and labels. -/
structure Utterance where
  speaker : String
  text : String
  meta : Meta
deriving DecidableEq, Repr, Inhabited

/-- A conversation: an id, an ordered sequence of utterances, and a metadata
map used by callers for train/val/test labeling. -/
structure Conversation where
  id : Nat
  utterances : List Utterance
  meta : Meta
deriving DecidableEq, Repr, Inhabited

/-- A corpus: a collection of conversations. -/
structure Corpus where
  conversations : List Conversation
deriving DecidableEq, Repr, Inhabited

/-! ## Notebook cell: role labeling

```python
for convo in sample_convos:
  for utt in convo.iter_utterances():
    if utt.speaker.id.startswith("j_"):
      utt.meta["role"] = "justice"
    else:
      utt.meta["role"] = "lawyer"
```
-/

/-- One iteration of the role-labeling loop body for a single utterance. -/
def assignRole (u : Utterance) : Utterance :=
  if u.speaker.startsWith "j_" then
    { u with meta := metaSet u.meta "role" (MetaVal.str "justice") }
  else
    { u with meta := metaSet u.meta "role" (MetaVal.str "lawyer") }

/-- The role-labeling loop over all sampled conversations. -/
def labelRoles (sample : List Conversation) : List Conversation :=
  sample.map (fun convo => { convo with utterances := convo.utterances.map assignRole })

/-! ## Notebook cell: train/val/test split

```python
train_convos, temp_convos = train_test_split(sample_convos, test_size=0.2, random_state=10)
val_convos, test_convos = train_test_split(temp_convos, test_size=0.5, random_state=10)
for convo in train_convos: convo.meta["train"] = True
for convo in val_convos:   convo.meta["val"] = True
for convo in test_convos:  convo.meta["test"] = True
```
-/

/-- Model of sklearn's `train_test_split` with `shuffle=True`: the fixed
`random_state` determines a permutation of the input, the last
`ceil(test_size * n)` elements of the permuted order form the test part and
the rest the train part.  The pseudorandom permutation is abstracted as the
already-permuted input list `shuffled` (theorems take `shuffled ~ sample` as a
hypothesis); `test_size` is the exact rational `num / den` (0.2 and 0.5 in the
notebook, where the float arithmetic is exact at the sizes involved). -/
def train_test_split (shuffled : List Conversation) (num den : Nat) :
    List Conversation × List Conversation :=
  let nTest := (shuffled.length * num + den - 1) / den
  (shuffled.take (shuffled.length - nTest), shuffled.drop (shuffled.length - nTest))

/-- Setting one split flag on every conversation of one of the three split
lists.  The notebook mutates the conversation objects in place; here the end
state of each sampled conversation is computed from which split list it
belongs to (the lists are pairwise disjoint for a duplicate-free sample). -/
def labelSplits (sample trainC valC testC : List Conversation) : List Conversation :=
  sample.map (fun convo =>
    if convo ∈ trainC then { convo with meta := metaSet convo.meta "train" (MetaVal.bool true) }
    else if convo ∈ valC then { convo with meta := metaSet convo.meta "val" (MetaVal.bool true) }
    else if convo ∈ testC then { convo with meta := metaSet convo.meta "test" (MetaVal.bool true) }
    else convo)

/-- The notebook's whole split step: an 80/20 split of the sample followed by
a 50/50 split of the held-out part, then flag labeling.  `s1` is the permuted
sample used by the first split and `s2` the permuted temp list used by the
second. -/
def demoSplit (sample s1 s2 : List Conversation) :
    List Conversation × List Conversation × List Conversation × List Conversation :=
  let p1 := train_test_split s1 1 5
  let p2 := train_test_split s2 1 2
  (p1.1, p2.1, p2.2, labelSplits sample p1.1 p2.1 p2.2)

/-! ## Notebook cell: high/low bucket labeling

```python
justice_threshold = int(len(justice_utts) * 0.20)
for utt in justice_utts[:justice_threshold]:
  utt.meta['type'] = "justice_low"
for utt in justice_utts[-justice_threshold:]:
  utt.meta['type'] = "justice_high"
```
-/

/-- Python slice `l[:t]` as a position predicate: positions `i < t`. -/
def inHeadSlice (t i : Nat) : Bool :=
  i < t

/-- Python slice `l[-t:]` as a position predicate: for `t = 0` this is
`l[0:]`, i.e. the whole list; for `t > 0` it is the last `t` positions. -/
def inTailSlice (n t i : Nat) : Bool :=
  t = 0 || n - t ≤ i

/-- Set the `type` metadata key of an utterance. -/
def setType (u : Utterance) (label : String) : Utterance :=
  { u with meta := metaSet u.meta "type" (MetaVal.str label) }

/-- First labeling loop: `for utt in utts[:t]: utt.meta['type'] = low`. -/
def labelLow (utts : List Utterance) (t : Nat) (low : String) : List Utterance :=
  (List.range utts.length).map (fun i =>
    if inHeadSlice t i then setType (utts.getD i default) low else utts.getD i default)

/-- Second labeling loop: `for utt in utts[-t:]: utt.meta['type'] = high`,
run after the first, so it overwrites where the slices overlap. -/
def labelHigh (utts : List Utterance) (t : Nat) (high : String) : List Utterance :=
  (List.range utts.length).map (fun i =>
    if inTailSlice utts.length t i then setType (utts.getD i default) high
    else utts.getD i default)

/-- The bucket-labeling step for one role, applied to that role's utterances
already sorted by redirection score: the threshold is
`int(len(utts) * 0.20)` (exact at these magnitudes, i.e. `len / 5`), the
bottom slice gets the low label, then the top slice the high label. -/
def labelBuckets (sortedUtts : List Utterance) (low high : String) : List Utterance :=
  let t := sortedUtts.length / 5
  labelHigh (labelLow sortedUtts t low) t high

/-! ## The redirection scorer

The `Redirection` and `LikelihoodModel` classes of `convokit.redirection` are
imported by the notebook but their sources are not part of the given material;
they are modelled from the specification (sections 3, 4.1, 6 and 7). -/

/-- Modelled from the spec: the likelihood-model capability boundary (spec
section 6): a black-box sequence scorer `score(context, candidate) →
log-likelihood` over text sequences, plus `fit(train_set, val_set) →
trained_state` delegating fine-tuning to the external ML backend.  The
trained-state type `σ` is opaque to the scorer.  Log-likelihoods are modelled
as exact rationals (no claim depends on float rounding). -/
structure LikelihoodModel (σ : Type) where
  score : List String → List String → Rat
  fit : List Conversation → List Conversation → σ

/-- The role label stored on an utterance by the role-labeling step (empty
string when absent). -/
def uttRole (u : Utterance) : String :=
  match metaLookup u.meta "role" with
  | some (MetaVal.str s) => s
  | _ => ""

/-- Role of the utterance at position `i` of a conversation's utterance
list. -/
def roleAt (utts : List Utterance) (i : Nat) : String :=
  uttRole (utts.getD i default)

/-- Modelled from the spec: index of the nearest turn strictly before `i`
whose role differs from `target` (scanning downward from `i - 1`); `none` when
every earlier turn has role `target`. -/
def prevOppIdx (roles : Nat → String) (target : String) : Nat → Option Nat
  | 0 => none
  | j + 1 => if roles j ≠ target then some j else prevOppIdx roles target j

/-- Helper scanning upward from position `s` with explicit fuel. -/
def futOppAux (roles : Nat → String) (target : String) : Nat → Nat → Option Nat
  | 0, _ => none
  | fuel + 1, s => if roles s ≠ target then some s else futOppAux roles target fuel (s + 1)

/-- Modelled from the spec: index of the nearest turn strictly after `i`
(and before `n`, the conversation length) whose role differs from `target`;
`none` when every later turn has role `target`. -/
def futOppIdx (roles : Nat → String) (target : String) (n i : Nat) : Option Nat :=
  futOppAux roles target (n - (i + 1)) (i + 1)

/-- Modelled from the spec: the default previous-context selector — a pure
function selecting, for the utterance at position `i`, the nearest preceding
opposite-role turn as the previous context (spec section 3: "default policy
assumes exactly two speaker roles and selects the nearest opposite-role turns
before/after the target"); `none` when no preceding opposite-role turn
exists. -/
def previous_context_selector_default (utts : List Utterance) (i : Nat) :
    Option (List Utterance) :=
  (prevOppIdx (roleAt utts) (roleAt utts i) i).map (fun j => [utts.getD j default])

/-- Modelled from the spec: the default future-context selector — a pure
function selecting the nearest following opposite-role turn as the future
context; `none` when no following opposite-role turn exists. -/
def future_context_selector_default (utts : List Utterance) (i : Nat) :
    Option (List Utterance) :=
  (futOppIdx (roleAt utts) (roleAt utts i) utts.length i).map (fun j => [utts.getD j default])

/-- Modelled from the spec: the redirection scorer (spec section 4.1).  The
likelihood model is optional to capture the unset/uninitialized state whose
use at `transform` time is a fatal precondition error (spec section 7);
context selectors are injectable with the defaults above. -/
structure Redirection (σ : Type) where
  likelihood_model : Option (LikelihoodModel σ)
  redirection_attribute_name : String
  previous_context_selector : List Utterance → Nat → Option (List Utterance) :=
    previous_context_selector_default
  future_context_selector : List Utterance → Nat → Option (List Utterance) :=
    future_context_selector_default

/-- Modelled from the spec: the redirection score of an utterance, derived
from the contrast between the likelihood of the actual future context
conditioned on the actual past context together with the utterance, and the
likelihood of the same future conditioned on the past context alone (the
counterfactual baseline without the utterance).  The exact contrast form is
left open by the spec; a difference of the two log-likelihoods is used —
every claim below is insensitive to this choice. -/
def redirectionScoreVal {σ : Type} (m : LikelihoodModel σ)
    (prevCtx futCtx : List Utterance) (u : Utterance) : Rat :=
  m.score (prevCtx.map Utterance.text ++ [u.text]) (futCtx.map Utterance.text) -
    m.score (prevCtx.map Utterance.text) (futCtx.map Utterance.text)

/-- Modelled from the spec: processing of one utterance during `transform` —
if both context selectors yield a valid context, the redirection score is
attached under the configured metadata key; otherwise the utterance is left
untouched (skipped, not an error). -/
def applyScore {σ : Type} (r : Redirection σ) (m : LikelihoodModel σ)
    (utts : List Utterance) (i : Nat) (u : Utterance) : Utterance :=
  match r.previous_context_selector utts i, r.future_context_selector utts i with
  | some prevCtx, some futCtx =>
      let v := MetaVal.num (redirectionScoreVal m prevCtx futCtx u)
      { u with meta := metaSet u.meta r.redirection_attribute_name v }
  | _, _ => u

/-- Modelled from the spec: the sequential scan of `transform` over one
conversation's utterances. -/
def transformUtts {σ : Type} (r : Redirection σ) (m : LikelihoodModel σ)
    (utts : List Utterance) : List Utterance :=
  (List.range utts.length).map (fun i => applyScore r m utts i (utts.getD i default))

/-- Modelled from the spec: `transform(corpus, selector)` — fails when the
likelihood model is unset, otherwise scores the utterances of every
conversation passing the selector and leaves the other conversations
unchanged. -/
def Redirection.transform {σ : Type} (r : Redirection σ) (c : Corpus)
    (selector : Conversation → Bool) : Except String Corpus :=
  match r.likelihood_model with
  | none => Except.error "redirection: likelihood model is not initialized"
  | some m => Except.ok
      { conversations := c.conversations.map (fun convo =>
          if selector convo then
            { convo with utterances := transformUtts r m convo.utterances }
          else convo) }

/-- Modelled from the spec: `fit(corpus, train_selector, val_selector)` —
fails when the likelihood model is unset, otherwise filters the conversations
by the two selector predicates and delegates training on exactly those two
sets to the injected likelihood model. -/
def Redirection.fit {σ : Type} (r : Redirection σ) (c : Corpus)
    (train_selector val_selector : Conversation → Bool) : Except String σ :=
  match r.likelihood_model with
  | none => Except.error "redirection: likelihood model is not initialized"
  | some m => Except.ok
      (m.fit (c.conversations.filter train_selector) (c.conversations.filter val_selector))

/-- The already-computed redirection score attached to an utterance, if
any. -/
def scoreOf {σ : Type} (r : Redirection σ) (u : Utterance) : Option Rat :=
  match metaLookup u.meta r.redirection_attribute_name with
  | some (MetaVal.num q) => some q
  | _ => none

/-- All scored utterances of a corpus, each paired with its attached
score. -/
def scoredUtts {σ : Type} (r : Redirection σ) (c : Corpus) : List (Utterance × Rat) :=
  c.conversations.flatMap (fun convo =>
    convo.utterances.filterMap (fun u => (scoreOf r u).map (fun q => (u, q))))

/-- Modelled from the spec: `summarize(corpus)` — presentation-only; returns
the examples ranked by their already-computed redirection score (highest
first) together with the resulting corpus state, which it leaves unchanged
and on which it computes no new score. -/
def Redirection.summarize {σ : Type} (r : Redirection σ) (c : Corpus) :
    List (Utterance × Rat) × Corpus :=
  ((scoredUtts r c).insertionSort (fun a b => b.2 ≤ a.2), c)

/-! ## Concrete fixtures (used by example scenarios and witnesses) -/

/-- A constant-likelihood stub model: every context/candidate pair scores 0;
its delegated training state records just the sizes of the sets it was
trained on. -/
def constModel : LikelihoodModel Nat :=
  ⟨fun _ _ => 0, fun ts vs => ts.length + vs.length⟩

/-- A redirection scorer over the stub model with the default context
selectors and the demo's `redirection` attribute name. -/
def demoRedirection : Redirection Nat :=
  { likelihood_model := some constModel, redirection_attribute_name := "redirection" }

/-- An utterance carrying a role label, as produced by the role-labeling
step. -/
def roleUtterance (speaker role text : String) : Utterance :=
  ⟨speaker, text, [("role", MetaVal.str role)]⟩

/-- A 3-utterance conversation with alternating speaker roles. -/
def demoConvo : Conversation :=
  ⟨0, [roleUtterance "j_a" "justice" "q1",
       roleUtterance "mr_b" "lawyer" "a1",
       roleUtterance "j_a" "justice" "q2"], []⟩

/-- A corpus holding only the 3-utterance alternating conversation. -/
def demoCorpus : Corpus := ⟨[demoConvo]⟩

/-- A single-utterance conversation: its utterance has neither previous nor
future context under the default selectors. -/
def soloConvo : Conversation := ⟨1, [roleUtterance "j_a" "justice" "q1"], []⟩

/-- A corpus holding only the single-utterance conversation. -/
def soloCorpus : Corpus := ⟨[soloConvo]⟩

/-- A concrete duplicate-free sample of 50 conversations with fresh
metadata. -/
def sampleW : List Conversation :=
  (List.range 50).map (fun n => Conversation.mk n [] [])

/-- The held-out part of the first 80/20 split of the concrete sample (under
the identity permutation). -/
def sampleTemp : List Conversation :=
  (train_test_split sampleW 1 5).2

/-! ## Helper lemmas on metadata maps -/

theorem metaLookup_append (m₁ m₂ : Meta) (k : String) :
    metaLookup (m₁ ++ m₂) k = (metaLookup m₁ k).or (metaLookup m₂ k) := by
  induction m₁ with
  | nil => simp [metaLookup]
  | cons p t ih =>
      obtain ⟨k', v⟩ := p
      by_cases h : k' = k
      · simp [metaLookup, h]
      · simp [metaLookup, h, ih]

theorem metaLookup_metaRemove_self (m : Meta) (k : String) :
    metaLookup (metaRemove m k) k = none := by
  induction m with
  | nil => rfl
  | cons p t ih =>
      obtain ⟨k', v⟩ := p
      by_cases h : k' = k
      · simp [metaRemove, h, ih]
      · simp [metaRemove, metaLookup, h, ih]

theorem metaLookup_metaRemove_ne (m : Meta) (k k' : String) (h : k' ≠ k) :
    metaLookup (metaRemove m k) k' = metaLookup m k' := by
  induction m with
  | nil => rfl
  | cons p t ih =>
      obtain ⟨k₀, v⟩ := p
      by_cases h0 : k₀ = k
      · have hne : k₀ ≠ k' := by rw [h0]; exact Ne.symm h
        simp [metaRemove, metaLookup, h0, hne, Ne.symm h, ih]
      · by_cases h1 : k₀ = k'
        · subst h1
          simp [metaRemove, metaLookup, h0, h, ih]
        · simp [metaRemove, metaLookup, h0, h1, ih]

theorem metaRemove_append (m₁ m₂ : Meta) (k : String) :
    metaRemove (m₁ ++ m₂) k = metaRemove m₁ k ++ metaRemove m₂ k := by
  induction m₁ with
  | nil => rfl
  | cons p t ih =>
      obtain ⟨k', v⟩ := p
      by_cases h : k' = k
      · simp [metaRemove, h, ih]
      · simp [metaRemove, h, ih]

theorem metaRemove_idem (m : Meta) (k : String) :
    metaRemove (metaRemove m k) k = metaRemove m k := by
  induction m with
  | nil => rfl
  | cons p t ih =>
      obtain ⟨k', v⟩ := p
      by_cases h : k' = k
      · simp [metaRemove, h, ih]
      · simp [metaRemove, h, ih]

theorem metaLookup_metaSet_self (m : Meta) (k : String) (v : MetaVal) :
    metaLookup (metaSet m k v) k = some v := by
  unfold metaSet
  rw [metaLookup_append, metaLookup_metaRemove_self]
  simp [metaLookup]

theorem metaLookup_metaSet_ne (m : Meta) (k k' : String) (v : MetaVal) (h : k' ≠ k) :
    metaLookup (metaSet m k v) k' = metaLookup m k' := by
  unfold metaSet
  rw [metaLookup_append, metaLookup_metaRemove_ne m k k' h]
  simp [metaLookup, Ne.symm h]

theorem metaSet_idem (m : Meta) (k : String) (v : MetaVal) :
    metaSet (metaSet m k v) k v = metaSet m k v := by
  unfold metaSet
  rw [metaRemove_append, metaRemove_idem]
  simp [metaRemove]

/-! ## Claim theorems -/

/-- Claim C10: after the role-labeling loop, every utterance of every sampled
conversation has a `role` metadata entry, equal to `justice` if and only if
the utterance's speaker id starts with the `j_` prefix, and equal to `lawyer`
otherwise. -/
theorem roles_assigned_by_speaker_id (sample : List Conversation)
    (convo : Conversation) (hc : convo ∈ labelRoles sample)
    (u : Utterance) (hu : u ∈ convo.utterances) :
    metaLookup u.meta "role" =
      some (MetaVal.str (if u.speaker.startsWith "j_" then "justice" else "lawyer")) ∧
    (metaLookup u.meta "role" = some (MetaVal.str "justice") ↔
      u.speaker.startsWith "j_" = true) := by
  obtain ⟨convo₀, _, rfl⟩ := List.mem_map.mp hc
  obtain ⟨u₀, _, rfl⟩ := List.mem_map.mp hu
  unfold assignRole
  by_cases hs : u₀.speaker.startsWith "j_"
  · rw [if_pos hs]
    refine ⟨?_, ?_⟩
    · rw [metaLookup_metaSet_self]
      simp [hs]
    · rw [metaLookup_metaSet_self]
      simp [hs]
  · rw [if_neg hs]
    refine ⟨?_, ?_⟩
    · rw [metaLookup_metaSet_self]
      simp [hs]
    · rw [metaLookup_metaSet_self]
      simp [hs]

/-- Witness for C10 at a concrete two-utterance conversation. -/
theorem roles_assigned_by_speaker_id_witness :
    (metaLookup (assignRole ⟨"j_roberts", "q", []⟩).meta "role" =
      some (MetaVal.str
        (if (assignRole ⟨"j_roberts", "q", []⟩).speaker.startsWith "j_" then "justice"
         else "lawyer")) ∧
    (metaLookup (assignRole ⟨"j_roberts", "q", []⟩).meta "role" =
      some (MetaVal.str "justice") ↔
        (assignRole ⟨"j_roberts", "q", []⟩).speaker.startsWith "j_" = true)) :=
  roles_assigned_by_speaker_id
    [⟨7, [⟨"j_roberts", "q", []⟩, ⟨"mr_olson", "a", []⟩], []⟩]
    ⟨7, [assignRole ⟨"j_roberts", "q", []⟩, assignRole ⟨"mr_olson", "a", []⟩], []⟩
    (List.mem_singleton.mpr rfl)
    (assignRole ⟨"j_roberts", "q", []⟩)
    (List.mem_cons_self _ _)

/-- Claim C8 (code bug): on a sorted list of 2 scored utterances, the
threshold `int(2 * 0.20)` is `0`, so the claim requires zero `high` labels;
the code's `utts[-0:]` slice is the whole list, so both utterances end up
labeled `justice_high`. -/
theorem bucket_labeling_small_list_all_high :
    (labelBuckets [⟨"j_a", "u1", []⟩, ⟨"mr_b", "u2", []⟩] "justice_low" "justice_high").map
        (fun u => metaLookup u.meta "type") =
      [some (MetaVal.str "justice_high"), some (MetaVal.str "justice_high")] ∧
    ([(⟨"j_a", "u1", []⟩ : Utterance), ⟨"mr_b", "u2", []⟩].length) / 5 = 0 := by
  constructor
  · rfl
  · rfl

/-- Claim C4: for every corpus, calling `transform` when the likelihood model
is unset is a fatal precondition error: the call fails with an error rather
than skipping or returning partial results. -/
theorem transform_unset_model_fatal {σ : Type} (r : Redirection σ)
    (h : r.likelihood_model = none) (c : Corpus) (sel : Conversation → Bool) :
    r.transform c sel =
      Except.error "redirection: likelihood model is not initialized" := by
  unfold Redirection.transform
  rw [h]

/-- Witness for C4 at a concrete scorer with no model and a concrete
corpus. -/
theorem transform_unset_model_fatal_witness :
    @Redirection.transform Unit
        { likelihood_model := none, redirection_attribute_name := "redirection" }
        ⟨[⟨0, [⟨"j_a", "q", []⟩], []⟩]⟩ (fun _ => true) =
      Except.error "redirection: likelihood model is not initialized" :=
  transform_unset_model_fatal _ rfl _ _

/-- Claim C2: `fit` delegates training to the likelihood model on exactly the
conversations for which `train_selector` returns true and validation on
exactly those for which `val_selector` returns true; a conversation
satisfying neither predicate belongs to neither of the two delegated sets. -/
theorem fit_uses_only_selected_conversations {σ : Type} (r : Redirection σ)
    (m : LikelihoodModel σ) (hm : r.likelihood_model = some m) (c : Corpus)
    (train_selector val_selector : Conversation → Bool) :
    r.fit c train_selector val_selector =
      Except.ok (m.fit (c.conversations.filter train_selector)
        (c.conversations.filter val_selector)) ∧
    (∀ convo ∈ c.conversations.filter train_selector, train_selector convo = true) ∧
    (∀ convo ∈ c.conversations.filter val_selector, val_selector convo = true) ∧
    (∀ convo, train_selector convo = false → val_selector convo = false →
      convo ∉ c.conversations.filter train_selector ∧
      convo ∉ c.conversations.filter val_selector) := by
  refine ⟨?_, ?_, ?_, ?_⟩
  · unfold Redirection.fit
    rw [hm]
  · exact fun convo hc => (List.mem_filter.mp hc).2
  · exact fun convo hc => (List.mem_filter.mp hc).2
  · intro convo ht hv
    constructor
    · intro hc
      rw [(List.mem_filter.mp hc).2] at ht
      exact Bool.true_eq_false.mp ht
    · intro hc
      rw [(List.mem_filter.mp hc).2] at hv
      exact Bool.true_eq_false.mp hv

/-- Witness for C2 at a concrete model and two-conversation corpus where one
conversation is selected for training and neither for validation. -/
theorem fit_uses_only_selected_conversations_witness :
    (@Redirection.fit Nat
        { likelihood_model := some ⟨fun _ _ => 0, fun ts vs => ts.length + vs.length⟩,
          redirection_attribute_name := "redirection" }
        ⟨[⟨0, [], [("train", MetaVal.bool true)]⟩, ⟨1, [], []⟩]⟩
        (fun convo => (metaLookup convo.meta "train").isSome)
        (fun convo => (metaLookup convo.meta "val").isSome) =
      Except.ok
        ((⟨fun _ _ => 0, fun ts vs => ts.length + vs.length⟩ : LikelihoodModel Nat).fit
          (List.filter (fun convo => (metaLookup convo.meta "train").isSome)
            [⟨0, [], [("train", MetaVal.bool true)]⟩, ⟨1, [], []⟩])
          (List.filter (fun convo => (metaLookup convo.meta "val").isSome)
            [⟨0, [], [("train", MetaVal.bool true)]⟩, ⟨1, [], []⟩]))) ∧
    (∀ convo ∈ List.filter (fun convo => (metaLookup convo.meta "train").isSome)
        [(⟨0, [], [("train", MetaVal.bool true)]⟩ : Conversation), ⟨1, [], []⟩],
      (metaLookup convo.meta "train").isSome = true) ∧
    (∀ convo ∈ List.filter (fun convo => (metaLookup convo.meta "val").isSome)
        [(⟨0, [], [("train", MetaVal.bool true)]⟩ : Conversation), ⟨1, [], []⟩],
      (metaLookup convo.meta "val").isSome = true) ∧
    (∀ convo, (metaLookup convo.meta "train").isSome = false →
      (metaLookup convo.meta "val").isSome = false →
      convo ∉ List.filter (fun convo => (metaLookup convo.meta "train").isSome)
        [(⟨0, [], [("train", MetaVal.bool true)]⟩ : Conversation), ⟨1, [], []⟩] ∧
      convo ∉ List.filter (fun convo => (metaLookup convo.meta "val").isSome)
        [(⟨0, [], [("train", MetaVal.bool true)]⟩ : Conversation), ⟨1, [], []⟩]) :=
  fit_uses_only_selected_conversations _ _ rfl _ _ _

/-! ## Helper lemmas on the transform scan -/

theorem transformUtts_length {σ : Type} (r : Redirection σ) (m : LikelihoodModel σ)
    (utts : List Utterance) : (transformUtts r m utts).length = utts.length := by
  unfold transformUtts
  simp

theorem transformUtts_getElem_lt {σ : Type} (r : Redirection σ) (m : LikelihoodModel σ)
    (utts : List Utterance) (i : Nat) (h : i < utts.length) :
    (transformUtts r m utts)[i]? = some (applyScore r m utts i (utts.getD i default)) := by
  unfold transformUtts
  rw [List.getElem?_map, List.getElem?_range h]
  rfl

theorem applyScore_no_context {σ : Type} (r : Redirection σ) (m : LikelihoodModel σ)
    (utts : List Utterance) (i : Nat) (u : Utterance)
    (hctx : r.previous_context_selector utts i = none ∨
      r.future_context_selector utts i = none) :
    applyScore r m utts i u = u := by
  unfold applyScore
  rcases hctx with h1 | h1
  · rw [h1]
  · rw [h1]
    cases r.previous_context_selector utts i <;> rfl

/-- Claim C1: after a successful `transform`, every utterance lacking either
a valid previous or a valid future context under the context selectors (and
not already carrying a score) has no redirection metadata key attached; such
utterances are skipped while the call still succeeds. -/
theorem transform_skips_utterances_without_context {σ : Type} (r : Redirection σ)
    (c c' : Corpus) (sel : Conversation → Bool)
    (h : r.transform c sel = Except.ok c')
    (ci : Nat) (convo : Conversation) (hconvo : c.conversations[ci]? = some convo)
    (i : Nat) (u : Utterance) (hu : convo.utterances[i]? = some u)
    (hctx : r.previous_context_selector convo.utterances i = none ∨
      r.future_context_selector convo.utterances i = none)
    (hfresh : metaLookup u.meta r.redirection_attribute_name = none) :
    ∃ convo' u', c'.conversations[ci]? = some convo' ∧
      convo'.utterances[i]? = some u' ∧
      metaLookup u'.meta r.redirection_attribute_name = none := by
  unfold Redirection.transform at h
  cases hm : r.likelihood_model with
  | none =>
      rw [hm] at h
      exact absurd h (by simp)
  | some m =>
      rw [hm] at h
      have hc' : c' = Corpus.mk (c.conversations.map (fun convo =>
          if sel convo then
            { convo with utterances := transformUtts r m convo.utterances }
          else convo)) := by
        injection h with h'
        exact h'.symm
      subst hc'
      have hlt : i < convo.utterances.length := (List.getElem?_eq_some.mp hu).1
      have hgetD : convo.utterances.getD i default = u := by
        rw [List.getD_eq_getElem?_getD, hu]
        rfl
      cases hs : sel convo with
      | false =>
          refine ⟨convo, u, ?_, hu, hfresh⟩
          show (List.map _ c.conversations)[ci]? = some convo
          rw [List.getElem?_map, hconvo]
          simp [hs]
      | true =>
          refine ⟨{ convo with utterances := transformUtts r m convo.utterances }, u,
            ?_, ?_, hfresh⟩
          · show (List.map _ c.conversations)[ci]? = some _
            rw [List.getElem?_map, hconvo]
            simp [hs]
          · show (transformUtts r m convo.utterances)[i]? = some u
            rw [transformUtts_getElem_lt r m convo.utterances i hlt, hgetD,
              applyScore_no_context r m convo.utterances i u hctx]

/-- Witness for C1: a single-utterance conversation, whose only utterance has
no context on either side, is passed through unscored. -/
theorem transform_skips_utterances_without_context_witness :
    ∃ convo' u', soloCorpus.conversations[0]? = some convo' ∧
      convo'.utterances[0]? = some u' ∧
      metaLookup u'.meta demoRedirection.redirection_attribute_name = none := by
  exact transform_skips_utterances_without_context demoRedirection soloCorpus soloCorpus
    (fun _ => true) rfl 0 soloConvo rfl 0 (roleUtterance "j_a" "justice" "q1") rfl
    (Or.inl rfl) rfl

/-- Claim C5: in the 3-utterance alternating-role conversation, under the
default context selectors and the constant-likelihood stub model, `transform`
attaches a defined redirection score to the middle utterance and no score to
the first and last utterances. -/
theorem middle_utterance_scored_endpoints_skipped :
    ∃ c', demoRedirection.transform demoCorpus (fun _ => true) = Except.ok c' ∧
      c'.conversations.map (fun convo =>
        convo.utterances.map (fun u => (scoreOf demoRedirection u).isSome)) =
      [[false, true, false]] := by
  refine ⟨_, rfl, ?_⟩
  decide

/-- Claim C6: `summarize` is presentation-only — it returns the corpus state
unchanged, and its returned examples are exactly the utterances carrying an
already-computed redirection score, ranked by that score (highest first),
each paired with the score already attached to it (no new computation). -/
theorem summarize_presentation_only {σ : Type} (r : Redirection σ) (c : Corpus) :
    (r.summarize c).2 = c ∧
    List.Perm (r.summarize c).1 (scoredUtts r c) ∧
    List.Sorted (fun a b : Utterance × Rat => b.2 ≤ a.2) (r.summarize c).1 ∧
    (∀ p ∈ (r.summarize c).1, scoreOf r p.1 = some p.2) := by
  refine ⟨rfl, List.perm_insertionSort _ _, ?_, ?_⟩
  · haveI ht : IsTotal (Utterance × Rat) (fun a b => b.2 ≤ a.2) :=
      ⟨fun a b => le_total b.2 a.2⟩
    haveI hr : IsTrans (Utterance × Rat) (fun a b => b.2 ≤ a.2) :=
      ⟨fun _ _ _ hab hbc => le_trans hbc hab⟩
    exact List.sorted_insertionSort _ _
  · intro p hp
    have hp' : p ∈ scoredUtts r c := (List.perm_insertionSort _ _).mem_iff.mp hp
    unfold scoredUtts at hp'
    obtain ⟨convo, _, hpu⟩ := List.mem_flatMap.mp hp'
    obtain ⟨u, _, hu⟩ := List.mem_filterMap.mp hpu
    cases hq : scoreOf r u with
    | none => rw [hq] at hu; exact absurd hu (by simp)
    | some q =>
        rw [hq] at hu
        have : (u, q) = p := by
          injection hu
        rw [← this]
        exact hq

/-- Witness for C6 at the demo scorer and corpus. -/
theorem summarize_presentation_only_witness :
    (demoRedirection.summarize demoCorpus).2 = demoCorpus ∧
    List.Perm (demoRedirection.summarize demoCorpus).1
      (scoredUtts demoRedirection demoCorpus) ∧
    List.Sorted (fun a b : Utterance × Rat => b.2 ≤ a.2)
      (demoRedirection.summarize demoCorpus).1 ∧
    (∀ p ∈ (demoRedirection.summarize demoCorpus).1,
      scoreOf demoRedirection p.1 = some p.2) :=
  summarize_presentation_only demoRedirection demoCorpus

/-! ## Helper lemmas for the default context selectors -/

theorem prevOppIdx_spec (roles : Nat → String) (target : String) (i j : Nat)
    (h : prevOppIdx roles target i = some j) :
    j < i ∧ roles j ≠ target ∧ ∀ k, j < k → k < i → roles k = target := by
  induction i with
  | zero => exact absurd h (by simp [prevOppIdx])
  | succ n ih =>
      unfold prevOppIdx at h
      by_cases hr : roles n ≠ target
      · rw [if_pos hr] at h
        injection h with hnj
        subst hnj
        exact ⟨Nat.lt_succ_self n, hr, fun k hk1 hk2 => absurd hk2 (by omega)⟩
      · rw [if_neg hr] at h
        obtain ⟨h1, h2, h3⟩ := ih h
        push_neg at hr
        refine ⟨Nat.lt_succ_of_lt h1, h2, fun k hk1 hk2 => ?_⟩
        rcases Nat.lt_succ_iff_lt_or_eq.mp hk2 with h' | h'
        · exact h3 k hk1 h'
        · rw [h']
          exact hr

theorem futOppAux_spec (roles : Nat → String) (target : String) (fuel : Nat) :
    ∀ s j, futOppAux roles target fuel s = some j →
      s ≤ j ∧ j < s + fuel ∧ roles j ≠ target ∧
        ∀ k, s ≤ k → k < j → roles k = target := by
  induction fuel with
  | zero => intro s j h; exact absurd h (by simp [futOppAux])
  | succ n ih =>
      intro s j h
      unfold futOppAux at h
      by_cases hr : roles s ≠ target
      · rw [if_pos hr] at h
        injection h with hsj
        subst hsj
        exact ⟨Nat.le_refl _, by omega, hr, fun k hk1 hk2 => absurd hk2 (by omega)⟩
      · rw [if_neg hr] at h
        obtain ⟨h1, h2, h3, h4⟩ := ih (s + 1) j h
        push_neg at hr
        refine ⟨by omega, by omega, h3, fun k hk1 hk2 => ?_⟩
        rcases Nat.eq_or_lt_of_le hk1 with h' | h'
        · rw [← h']
          exact hr
        · exact h4 k (by omega) hk2

theorem futOppIdx_spec (roles : Nat → String) (target : String) (n i j : Nat)
    (h : futOppIdx roles target n i = some j) :
    i < j ∧ j < n ∧ roles j ≠ target ∧
      ∀ k, i < k → k < j → roles k = target := by
  unfold futOppIdx at h
  obtain ⟨h1, h2, h3, h4⟩ := futOppAux_spec roles target (n - (i + 1)) (i + 1) j h
  have hfuel : n - (i + 1) ≠ 0 := by
    intro h0
    rw [h0] at h
    exact absurd h (by simp [futOppAux])
  refine ⟨by omega, by omega, h3, fun k hk1 hk2 => h4 k (by omega) hk2⟩

/-- Claim C7: the default context selectors are pure functions that select as
previous context the nearest preceding opposite-role turn and as future
context the nearest following opposite-role turn relative to the target
utterance: whenever they return a context, it is a single turn of opposite
role located before (resp. after) the target, and every turn strictly between
it and the target has the target's own role. -/
theorem default_selectors_nearest_opposite_role (utts : List Utterance) (i : Nat) :
    (∀ pctx, previous_context_selector_default utts i = some pctx →
      ∃ j, j < i ∧ pctx = [utts.getD j default] ∧ roleAt utts j ≠ roleAt utts i ∧
        ∀ k, j < k → k < i → roleAt utts k = roleAt utts i) ∧
    (∀ fctx, future_context_selector_default utts i = some fctx →
      ∃ j, i < j ∧ j < utts.length ∧ fctx = [utts.getD j default] ∧
        roleAt utts j ≠ roleAt utts i ∧
        ∀ k, i < k → k < j → roleAt utts k = roleAt utts i) := by
  constructor
  · intro pctx hp
    unfold previous_context_selector_default at hp
    obtain ⟨j, hj, hctx⟩ := Option.map_eq_some'.mp hp
    obtain ⟨h1, h2, h3⟩ := prevOppIdx_spec (roleAt utts) (roleAt utts i) i j hj
    exact ⟨j, h1, hctx.symm, h2, h3⟩
  · intro fctx hf
    unfold future_context_selector_default at hf
    obtain ⟨j, hj, hctx⟩ := Option.map_eq_some'.mp hf
    obtain ⟨h1, h2, h3, h4⟩ := futOppIdx_spec (roleAt utts) (roleAt utts i) utts.length i j hj
    exact ⟨j, h1, h2, hctx.symm, h3, h4⟩

/-- Witness for C7 at the middle utterance of the 3-utterance alternating
conversation: its previous context is turn 0 and its future context turn
2. -/
theorem default_selectors_nearest_opposite_role_witness :
    (∃ j, j < 1 ∧
        [demoConvo.utterances.getD 0 default] = [demoConvo.utterances.getD j default] ∧
        roleAt demoConvo.utterances j ≠ roleAt demoConvo.utterances 1 ∧
        ∀ k, j < k → k < 1 → roleAt demoConvo.utterances k = roleAt demoConvo.utterances 1) ∧
    (∃ j, 1 < j ∧ j < demoConvo.utterances.length ∧
        [demoConvo.utterances.getD 2 default] = [demoConvo.utterances.getD j default] ∧
        roleAt demoConvo.utterances j ≠ roleAt demoConvo.utterances 1 ∧
        ∀ k, 1 < k → k < j → roleAt demoConvo.utterances k = roleAt demoConvo.utterances 1) :=
  ⟨(default_selectors_nearest_opposite_role demoConvo.utterances 1).1
      [demoConvo.utterances.getD 0 default] rfl,
   (default_selectors_nearest_opposite_role demoConvo.utterances 1).2
      [demoConvo.utterances.getD 2 default] rfl⟩

/-! ## Helper lemmas for idempotence of the transform scan -/

theorem applyScore_text {σ : Type} (r : Redirection σ) (m : LikelihoodModel σ)
    (utts : List Utterance) (i : Nat) (u : Utterance) :
    (applyScore r m utts i u).text = u.text := by
  unfold applyScore
  cases r.previous_context_selector utts i <;>
    cases r.future_context_selector utts i <;> rfl

theorem applyScore_role {σ : Type} (r : Redirection σ) (m : LikelihoodModel σ)
    (utts : List Utterance) (i : Nat) (u : Utterance)
    (hattr : r.redirection_attribute_name ≠ "role") :
    uttRole (applyScore r m utts i u) = uttRole u := by
  unfold applyScore
  cases hp : r.previous_context_selector utts i with
  | none => rfl
  | some p =>
      cases hf : r.future_context_selector utts i with
      | none => rfl
      | some f =>
          have hrw := metaLookup_metaSet_ne u.meta r.redirection_attribute_name "role"
            (MetaVal.num (redirectionScoreVal m p f u)) (Ne.symm hattr)
          simp [uttRole, hrw]

theorem transformUtts_getD_lt {σ : Type} (r : Redirection σ) (m : LikelihoodModel σ)
    (utts : List Utterance) (i : Nat) (h : i < utts.length) :
    (transformUtts r m utts).getD i default =
      applyScore r m utts i (utts.getD i default) := by
  rw [List.getD_eq_getElem?_getD, transformUtts_getElem_lt r m utts i h]
  rfl

theorem transformUtts_getD_ge {σ : Type} (r : Redirection σ) (m : LikelihoodModel σ)
    (utts : List Utterance) (i : Nat) (h : utts.length ≤ i) :
    (transformUtts r m utts).getD i default = default := by
  rw [List.getD_eq_getElem?_getD, List.getElem?_eq_none]
  · rfl
  · rw [transformUtts_length]
    exact h

theorem roleAt_transformUtts {σ : Type} (r : Redirection σ) (m : LikelihoodModel σ)
    (utts : List Utterance) (hattr : r.redirection_attribute_name ≠ "role") :
    roleAt (transformUtts r m utts) = roleAt utts := by
  funext j
  unfold roleAt
  by_cases h : j < utts.length
  · rw [transformUtts_getD_lt r m utts j h, applyScore_role r m utts j _ hattr]
  · push_neg at h
    rw [transformUtts_getD_ge r m utts j h, List.getD_eq_getElem?_getD,
      List.getElem?_eq_none h]
    rfl

theorem text_getD_transformUtts {σ : Type} (r : Redirection σ) (m : LikelihoodModel σ)
    (utts : List Utterance) (j : Nat) :
    ((transformUtts r m utts).getD j default).text = (utts.getD j default).text := by
  by_cases h : j < utts.length
  · rw [transformUtts_getD_lt r m utts j h, applyScore_text]
  · push_neg at h
    rw [transformUtts_getD_ge r m utts j h, List.getD_eq_getElem?_getD,
      List.getElem?_eq_none h]
    rfl

theorem redirectionScoreVal_texts {σ : Type} (m : LikelihoodModel σ)
    (p p' f f' : List Utterance) (u u' : Utterance)
    (hp : p.map Utterance.text = p'.map Utterance.text)
    (hf : f.map Utterance.text = f'.map Utterance.text)
    (hu : u.text = u'.text) :
    redirectionScoreVal m p f u = redirectionScoreVal m p' f' u' := by
  unfold redirectionScoreVal
  rw [hp, hf, hu]

theorem prev_default_transformUtts {σ : Type} (r : Redirection σ) (m : LikelihoodModel σ)
    (utts : List Utterance) (i : Nat) (hattr : r.redirection_attribute_name ≠ "role") :
    previous_context_selector_default (transformUtts r m utts) i =
      (prevOppIdx (roleAt utts) (roleAt utts i) i).map
        (fun j => [(transformUtts r m utts).getD j default]) := by
  unfold previous_context_selector_default
  rw [roleAt_transformUtts r m utts hattr]

theorem fut_default_transformUtts {σ : Type} (r : Redirection σ) (m : LikelihoodModel σ)
    (utts : List Utterance) (i : Nat) (hattr : r.redirection_attribute_name ≠ "role") :
    future_context_selector_default (transformUtts r m utts) i =
      (futOppIdx (roleAt utts) (roleAt utts i) utts.length i).map
        (fun j => [(transformUtts r m utts).getD j default]) := by
  unfold future_context_selector_default
  rw [roleAt_transformUtts r m utts hattr, transformUtts_length]

theorem applyScore_second_pass {σ : Type} (r : Redirection σ) (m : LikelihoodModel σ)
    (hprev : r.previous_context_selector = previous_context_selector_default)
    (hfut : r.future_context_selector = future_context_selector_default)
    (hattr : r.redirection_attribute_name ≠ "role")
    (utts : List Utterance) (i : Nat) :
    applyScore r m (transformUtts r m utts) i
        (applyScore r m utts i (utts.getD i default)) =
      applyScore r m utts i (utts.getD i default) := by
  unfold applyScore
  rw [hprev, hfut, prev_default_transformUtts r m utts i hattr,
    fut_default_transformUtts r m utts i hattr]
  unfold previous_context_selector_default future_context_selector_default
  cases hp : prevOppIdx (roleAt utts) (roleAt utts i) i with
  | none => simp
  | some j =>
      cases hf : futOppIdx (roleAt utts) (roleAt utts i) utts.length i with
      | none => simp
      | some j' =>
          simp only [Option.map_some']
          have hv : redirectionScoreVal m [(transformUtts r m utts).getD j default]
              [(transformUtts r m utts).getD j' default]
              { utts.getD i default with
                meta := metaSet (utts.getD i default).meta r.redirection_attribute_name
                  (MetaVal.num (redirectionScoreVal m [utts.getD j default]
                    [utts.getD j' default] (utts.getD i default))) } =
              redirectionScoreVal m [utts.getD j default] [utts.getD j' default]
                (utts.getD i default) := by
            apply redirectionScoreVal_texts
            · simp only [List.map_cons, List.map_nil, text_getD_transformUtts]
            · simp only [List.map_cons, List.map_nil, text_getD_transformUtts]
            · rfl
          simp only [hv]
          simp [metaSet_idem]

theorem transformUtts_idem {σ : Type} (r : Redirection σ) (m : LikelihoodModel σ)
    (hprev : r.previous_context_selector = previous_context_selector_default)
    (hfut : r.future_context_selector = future_context_selector_default)
    (hattr : r.redirection_attribute_name ≠ "role")
    (utts : List Utterance) :
    transformUtts r m (transformUtts r m utts) = transformUtts r m utts := by
  apply List.ext_getElem?
  intro i
  by_cases hi : i < utts.length
  · rw [transformUtts_getElem_lt r m _ i (by rw [transformUtts_length]; exact hi),
      transformUtts_getElem_lt r m utts i hi,
      transformUtts_getD_lt r m utts i hi,
      applyScore_second_pass r m hprev hfut hattr utts i]
  · push_neg at hi
    rw [List.getElem?_eq_none, List.getElem?_eq_none]
    · rw [transformUtts_length]
      exact hi
    · rw [transformUtts_length, transformUtts_length]
      exact hi

/-- Claim C3: with the model and corpus unchanged between runs, re-running
`transform` is idempotent on the attached scores: a second run over the
corpus produced by the first run reproduces exactly the same corpus (the
scorer uses the default context selectors, its attribute name is not the
`role` key it reads, and the conversation selector depends only on
conversation metadata, which `transform` never modifies). -/
theorem transform_idempotent {σ : Type} (r : Redirection σ) (m : LikelihoodModel σ)
    (hm : r.likelihood_model = some m)
    (hprev : r.previous_context_selector = previous_context_selector_default)
    (hfut : r.future_context_selector = future_context_selector_default)
    (hattr : r.redirection_attribute_name ≠ "role")
    (sel : Conversation → Bool)
    (hsel : ∀ c₁ c₂ : Conversation, c₁.meta = c₂.meta → sel c₁ = sel c₂)
    (c c' : Corpus) (h : r.transform c sel = Except.ok c') :
    r.transform c' sel = Except.ok c' := by
  unfold Redirection.transform at h ⊢
  rw [hm] at h ⊢
  injection h with h
  subst h
  refine congrArg Except.ok (congrArg Corpus.mk ?_)
  show List.map _ (List.map _ c.conversations) = List.map _ c.conversations
  rw [List.map_map]
  apply List.map_congr_left
  intro convo _
  dsimp only [Function.comp]
  by_cases hs : sel convo = true
  · rw [if_pos hs]
    have hs2 : sel { convo with utterances := transformUtts r m convo.utterances } = true := by
      rw [hsel { convo with utterances := transformUtts r m convo.utterances } convo rfl]
      exact hs
    rw [if_pos hs2]
    show Conversation.mk convo.id
        (transformUtts r m (transformUtts r m convo.utterances)) convo.meta =
      Conversation.mk convo.id (transformUtts r m convo.utterances) convo.meta
    rw [transformUtts_idem r m hprev hfut hattr]
  · rw [if_neg hs, if_neg hs]

/-- Witness for C3 at the single-utterance corpus, which `transform` maps to
itself. -/
theorem transform_idempotent_witness :
    demoRedirection.transform soloCorpus (fun _ => true) = Except.ok soloCorpus :=
  transform_idempotent demoRedirection constModel rfl rfl rfl (by decide)
    (fun _ => true) (fun _ _ _ => rfl) soloCorpus soloCorpus rfl

/-- Claim C9: on a duplicate-free 50-conversation sample with fresh metadata,
the two-stage split yields three pairwise-disjoint conversation lists of
sizes 40, 5 and 5 whose union is (a permutation of) the whole sample, and
after flag labeling every sampled conversation carries exactly one of the
`train`, `val`, `test` flags set to true.  The pseudorandom shuffles of the
two `train_test_split` calls enter as the permutations `s1` of the sample and
`s2` of the held-out part. -/
theorem split_is_partition_with_unique_flags
    (sample s1 s2 : List Conversation)
    (hlen : sample.length = 50) (hnd : sample.Nodup)
    (hp1 : List.Perm s1 sample)
    (hp2 : List.Perm s2 (train_test_split s1 1 5).2)
    (hfresh : ∀ convo ∈ sample,
      metaLookup convo.meta "train" = none ∧ metaLookup convo.meta "val" = none ∧
      metaLookup convo.meta "test" = none) :
    (train_test_split s1 1 5).1.length = 40 ∧
    (train_test_split s2 1 2).1.length = 5 ∧
    (train_test_split s2 1 2).2.length = 5 ∧
    List.Disjoint (train_test_split s1 1 5).1 (train_test_split s2 1 2).1 ∧
    List.Disjoint (train_test_split s1 1 5).1 (train_test_split s2 1 2).2 ∧
    List.Disjoint (train_test_split s2 1 2).1 (train_test_split s2 1 2).2 ∧
    List.Perm ((train_test_split s1 1 5).1 ++ (train_test_split s2 1 2).1 ++
      (train_test_split s2 1 2).2) sample ∧
    ∀ convo ∈ labelSplits sample (train_test_split s1 1 5).1
        (train_test_split s2 1 2).1 (train_test_split s2 1 2).2,
      (metaLookup convo.meta "train" = some (MetaVal.bool true) ∧
        metaLookup convo.meta "val" = none ∧ metaLookup convo.meta "test" = none) ∨
      (metaLookup convo.meta "train" = none ∧
        metaLookup convo.meta "val" = some (MetaVal.bool true) ∧
        metaLookup convo.meta "test" = none) ∨
      (metaLookup convo.meta "train" = none ∧ metaLookup convo.meta "val" = none ∧
        metaLookup convo.meta "test" = some (MetaVal.bool true)) := by
  have hs1len : s1.length = 50 := hp1.length_eq.trans hlen
  have hsplit1 : train_test_split s1 1 5 = (s1.take 40, s1.drop 40) := by
    simp only [train_test_split]
    rw [hs1len]
  have hs2len : s2.length = 10 := by
    rw [hp2.length_eq, hsplit1, List.length_drop, hs1len]
  have hsplit2 : train_test_split s2 1 2 = (s2.take 5, s2.drop 5) := by
    simp only [train_test_split]
    rw [hs2len]
  have hnd1 : s1.Nodup := hp1.nodup_iff.mpr hnd
  have hndtemp : (s1.drop 40).Nodup := (List.drop_sublist 40 s1).nodup hnd1
  have hnd2 : s2.Nodup := by
    refine hp2.nodup_iff.mpr ?_
    rw [hsplit1]
    exact hndtemp
  have d1 : List.Disjoint (s1.take 40) (s1.drop 40) :=
    List.disjoint_take_drop hnd1 (le_refl 40)
  have hmem2 : ∀ a, a ∈ s2 → a ∈ s1.drop 40 := by
    intro a ha
    have := hp2.mem_iff.mp ha
    rw [hsplit1] at this
    exact this
  have dtv : List.Disjoint (s1.take 40) (s2.take 5) := fun a ha hb =>
    d1 ha (hmem2 a ((List.take_sublist _ _).subset hb))
  have dtt : List.Disjoint (s1.take 40) (s2.drop 5) := fun a ha hb =>
    d1 ha (hmem2 a ((List.drop_sublist _ _).subset hb))
  have dvt : List.Disjoint (s2.take 5) (s2.drop 5) :=
    List.disjoint_take_drop hnd2 (le_refl 5)
  have hperm : List.Perm (s1.take 40 ++ (s2.take 5 ++ s2.drop 5)) sample := by
    have h1 : List.Perm (s2.take 5 ++ s2.drop 5) (s1.drop 40) := by
      rw [List.take_append_drop]
      have := hp2
      rw [hsplit1] at this
      exact this
    have h2 : List.Perm (s1.take 40 ++ (s2.take 5 ++ s2.drop 5))
        (s1.take 40 ++ s1.drop 40) := List.Perm.append_left _ h1
    refine h2.trans ?_
    rw [List.take_append_drop]
    exact hp1
  rw [hsplit1, hsplit2]
  refine ⟨?_, ?_, ?_, dtv, dtt, dvt, ?_, ?_⟩
  · rw [List.length_take, hs1len]
    decide
  · rw [List.length_take, hs2len]
    decide
  · rw [List.length_drop, hs2len]
  · rw [List.append_assoc]
    exact hperm
  · intro convo hconvo
    unfold labelSplits at hconvo
    obtain ⟨c0, hc0, rfl⟩ := List.mem_map.mp hconvo
    obtain ⟨hf1, hf2, hf3⟩ := hfresh c0 hc0
    by_cases h1 : c0 ∈ s1.take 40
    · left
      rw [if_pos h1]
      refine ⟨metaLookup_metaSet_self _ _ _, ?_, ?_⟩
      · rw [metaLookup_metaSet_ne _ _ _ _ (by decide)]
        exact hf2
      · rw [metaLookup_metaSet_ne _ _ _ _ (by decide)]
        exact hf3
    · by_cases h2 : c0 ∈ s2.take 5
      · right; left
        rw [if_neg h1, if_pos h2]
        refine ⟨?_, metaLookup_metaSet_self _ _ _, ?_⟩
        · rw [metaLookup_metaSet_ne _ _ _ _ (by decide)]
          exact hf1
        · rw [metaLookup_metaSet_ne _ _ _ _ (by decide)]
          exact hf3
      · by_cases h3 : c0 ∈ s2.drop 5
        · right; right
          rw [if_neg h1, if_neg h2, if_pos h3]
          refine ⟨?_, ?_, metaLookup_metaSet_self _ _ _⟩
          · rw [metaLookup_metaSet_ne _ _ _ _ (by decide)]
            exact hf1
          · rw [metaLookup_metaSet_ne _ _ _ _ (by decide)]
            exact hf2
        · exfalso
          have := hperm.mem_iff.mpr hc0
          rcases List.mem_append.mp this with h | h
          · exact h1 h
          · rcases List.mem_append.mp h with h' | h'
            · exact h2 h'
            · exact h3 h'

/-- Witness for C9 at a concrete duplicate-free 50-conversation sample, using
the identity permutations for both shuffles. -/
theorem split_is_partition_with_unique_flags_witness :
    (train_test_split sampleW 1 5).1.length = 40 ∧
    (train_test_split sampleTemp 1 2).1.length = 5 ∧
    (train_test_split sampleTemp 1 2).2.length = 5 ∧
    List.Disjoint (train_test_split sampleW 1 5).1 (train_test_split sampleTemp 1 2).1 ∧
    List.Disjoint (train_test_split sampleW 1 5).1 (train_test_split sampleTemp 1 2).2 ∧
    List.Disjoint (train_test_split sampleTemp 1 2).1 (train_test_split sampleTemp 1 2).2 ∧
    List.Perm ((train_test_split sampleW 1 5).1 ++ (train_test_split sampleTemp 1 2).1 ++
      (train_test_split sampleTemp 1 2).2) sampleW ∧
    ∀ convo ∈ labelSplits sampleW (train_test_split sampleW 1 5).1
        (train_test_split sampleTemp 1 2).1 (train_test_split sampleTemp 1 2).2,
      (metaLookup convo.meta "train" = some (MetaVal.bool true) ∧
        metaLookup convo.meta "val" = none ∧ metaLookup convo.meta "test" = none) ∨
      (metaLookup convo.meta "train" = none ∧
        metaLookup convo.meta "val" = some (MetaVal.bool true) ∧
        metaLookup convo.meta "test" = none) ∨
      (metaLookup convo.meta "train" = none ∧ metaLookup convo.meta "val" = none ∧
        metaLookup convo.meta "test" = some (MetaVal.bool true)) :=
  split_is_partition_with_unique_flags sampleW sampleW sampleTemp rfl
    (by decide) (List.Perm.refl _) (List.Perm.refl _) (by decide)

end ConvoKit
